import Mathlib

/-!
Verification of the NL2SQL ReAct example
(`examples/conversation_nl2sql/react_nl2sql.ipynb`) against its design
specification.

Strings are embedded as `List Char`; Python string methods used by the notebook
(`str.replace`, `str.split()` with no argument, `" ".join`, `str.strip`,
`str.split("/*")[0]`, `str.startswith`) are translated operation by operation.
Components of the surrounding framework whose source is not part of this
repository snapshot (the ServiceToolkit registry, the `query_sqlite` service
and the ReActAgent loop; the notebook only registers or instantiates them) are
modelled from the specification, as marked in their doc comments.
-/

/-- The whitespace test used by Python's no-argument `str.split` and `str.strip`
(restricted to the ASCII whitespace characters). -/
def isPySpace (c : Char) : Bool :=
  c = ' ' || c = '\t' || c = '\n' || c = '\r' || c = '\x0b' || c = '\x0c'

/-- Python `s.replace("\n", " ")`: every newline becomes a single space. -/
def replaceNl (l : List Char) : List Char :=
  l.map (fun c => if c = '\n' then ' ' else c)

/-- Worker for `pySplit`: `acc` holds the current word reversed. -/
def pySplitAux : List Char → List Char → List (List Char)
  | [], acc => if acc.isEmpty then [] else [acc.reverse]
  | c :: rest, acc =>
    if isPySpace c then
      if acc.isEmpty then pySplitAux rest [] else acc.reverse :: pySplitAux rest []
    else
      pySplitAux rest (c :: acc)

/-- Python `s.split()` with no argument: maximal runs of non-whitespace
characters, with no empty words. -/
def pySplit (l : List Char) : List (List Char) :=
  pySplitAux l []

/-- Python `" ".join(words)`. -/
def joinSp : List (List Char) → List Char
  | [] => []
  | [w] => w
  | w :: ws => w ++ ' ' :: joinSp ws

/-- Python `s.strip()`: remove trailing whitespace, then leading whitespace
(the order is immaterial; this order keeps the head of the result visible). -/
def pyStrip (l : List Char) : List Char :=
  ((l.reverse.dropWhile isPySpace).reverse).dropWhile isPySpace

/-- Python `s.split("/*")[0]`: the longest prefix of `s` containing no
occurrence of the two-character pattern `/*`. -/
def takeBeforeCC : List Char → List Char
  | [] => []
  | c :: rest =>
    if c = '/' && rest.head? = some '*' then [] else c :: takeBeforeCC rest

/-- `true` iff the two-character pattern `/*` occurs in the list. -/
def hasCC : List Char → Bool
  | [] => false
  | c :: rest => (c = '/' && rest.head? = some '*') || hasCC rest

/-- The whitespace normalisation performed by `get_response_from_prompt`:
`" ".join(sql.replace("\n", " ").split())`. -/
def normalizeSql (sql : List Char) : List Char :=
  joinSp (pySplit (replaceNl sql))

/-- The value of the variable `sql` in `get_response_from_prompt` after the two
normalisation lines
`sql = " ".join(sql.replace("\n", " ").split())` and
`sql = sql.strip().split("/*")[0]`, as a function of the completion text. -/
def sqlCore (completion : List Char) : List Char :=
  takeBeforeCC (pyStrip (normalizeSql completion))

/-- The if/elif/else at the end of `get_response_from_prompt`:

```python
if sql.startswith("SELECT"):
    response = sql + "\n"
elif sql.startswith(" "):
    response = "SELECT" + sql + "\n"
else:
    response = "SELECT " + sql + "\n"
return response
```
-/
def selectBranch (sql2 : List Char) : List Char :=
  if List.isPrefixOf "SELECT".data sql2 then
    sql2 ++ ['\n']
  else if sql2.head? = some ' ' then
    "SELECT".data ++ sql2 ++ ['\n']
  else
    "SELECT ".data ++ sql2 ++ ['\n']

/-- The body of `get_response_from_prompt` from the notebook, applied to the
model completion text `sql = model(messages).text`: normalise whitespace, cut
at the first `/*`, then branch on `startswith`. -/
def get_response_from_prompt (completion : List Char) : List Char :=
  selectBranch (sqlCore completion)

/-- `agentscope.service.ServiceExecStatus` (the two members used here). -/
inductive ServiceExecStatus
  | SUCCESS
  | FAILURE
deriving DecidableEq, Repr

/-- `agentscope.service.ServiceResponse`: a status plus a textual payload. -/
structure ServiceResponse where
  status : ServiceExecStatus
  content : List Char
deriving DecidableEq, Repr

/-- The tool `generate_sql_query(question, db_path, model)` from the notebook.
The prompt construction `DailSQLPromptGenerator(db_path).generate_prompt(...)`
is an external collaborator, passed in as the fallible function `promptGen`
(its internals are out of scope; it may raise, which the notebook code does
not catch — hence the `Except` result). The model call is `model`, mapping a
prompt to the completion text. On the normal path the notebook always wraps
the normalised completion in `ServiceResponse(SUCCESS, ...)`. -/
def generate_sql_query (promptGen : List Char → Except (List Char) (List Char))
    (model : List Char → List Char) (question : List Char) :
    Except (List Char) ServiceResponse := do
  let prompt ← promptGen question
  pure ⟨ServiceExecStatus.SUCCESS, get_response_from_prompt (model prompt)⟩

/-- The two-way normalisation described by claim C9 (stated from the claim's
words, for comparison with the three-way branch of the source): return the
normalised completion plus a newline if it starts with `SELECT`, otherwise
prepend `"SELECT "`. -/
def twoWayResponse (completion : List Char) : List Char :=
  if List.isPrefixOf "SELECT".data (sqlCore completion) then
    sqlCore completion ++ ['\n']
  else
    "SELECT ".data ++ sqlCore completion ++ ['\n']

/-- The normalisation behaviour asserted by claim C1 (stated from the claim's
words, for comparison with the source): the completion's text from its first
`SELECT` keyword onward — everything before the first occurrence of `SELECT`
is stripped. -/
def fromFirstSelect : List Char → List Char
  | [] => []
  | c :: rest =>
    if List.isPrefixOf "SELECT".data (c :: rest) then c :: rest
    else fromFirstSelect rest

/-- Modelled from the spec: the Tool Registry's dispatch step 4 — "Captures any
handler-raised fault and converts it to ExecutionResult-FAILURE with
error_detail; the registry never propagates a raw fault past its boundary"
(section 4.1). The registry source (agentscope's ServiceToolkit) is not under
src/; the notebook only registers tools with it. -/
def dispatchCaptured (handler : Unit → Except (List Char) ServiceResponse) :
    ServiceResponse :=
  match handler () with
  | Except.ok r => r
  | Except.error e => ⟨ServiceExecStatus.FAILURE, e⟩

/-- Modelled from the spec: the SQL Execution Guard classifies a statement "by
its leading keyword (case-insensitive, whitespace-normalized)" (section 4.2);
the guard `agentscope.service.query_sqlite` is not under src/, the notebook
only registers it. -/
def leadingKeyword (q : List Char) : List Char :=
  ((q.dropWhile isPySpace).takeWhile (fun c => !isPySpace c)).map Char.toUpper

/-- Modelled from the spec: the data- or schema-mutating leading keywords
"INSERT/UPDATE/DELETE/DROP/ALTER/CREATE/..." (section 4.2). -/
def mutatingKeywords : List (List Char) :=
  ["INSERT".data, "UPDATE".data, "DELETE".data, "DROP".data, "ALTER".data,
   "CREATE".data, "REPLACE".data, "TRUNCATE".data]

/-- Modelled from the spec: classification of a query as mutating. -/
def isMutatingQuery (q : List Char) : Bool :=
  mutatingKeywords.contains (leadingKeyword q)

/-- Outcome of one guarded SQL execution: all result rows, or a failure with
the engine's message. -/
inductive SqlQueryResult
  | success (rows : List (List Int))
  | failure (error_detail : List Char)
deriving DecidableEq, Repr

/-- Modelled from the spec: `query_sqlite` with its mutation-permission flag
(section 4.2): a query classified as mutating is rejected with
`MutationNotAllowedError` before any statement reaches the connection;
otherwise the statement is executed and rows are collected, with engine faults
normalised to FAILURE. The second component of the result counts the calls
that reach the underlying connection `conn`. -/
def query_sqlite (conn : List Char → Except (List Char) (List (List Int)))
    (allow_change_data : Bool) (query : List Char) : SqlQueryResult × Nat :=
  if isMutatingQuery query && !allow_change_data then
    (SqlQueryResult.failure "MutationNotAllowedError".data, 0)
  else
    match conn query with
    | Except.ok rows => (SqlQueryResult.success rows, 1)
    | Except.error e => (SqlQueryResult.failure e, 1)

/-- Lookup in an argument mapping (first binding wins). -/
def lookupArg : List (List Char × List Char) → List Char → Option (List Char)
  | [], _ => none
  | (k, v) :: rest, n => if k = n then some v else lookupArg rest n

/-- Modelled from the spec: a ToolDescriptor (section 3): unique name, ordered
parameter schema, and the bound arguments fixed at registration — in the
notebook, `db_path` and `model` for `generate_sql_query` and `database` for
`query_sqlite` (`service_toolkit.add(...)`); the registry source is not under
src/. -/
structure ToolDescriptor where
  name : List Char
  params : List (List Char)
  bound_arguments : List (List Char × List Char)

/-- Modelled from the spec: the schema summary shown to the model contains
only the variable parameters — "bound arguments are never exposed to the
model" (section 3). -/
def exposedParams (d : ToolDescriptor) : List (List Char) :=
  d.params.filter (fun p => (lookupArg d.bound_arguments p).isNone)

/-- Modelled from the spec: dispatch "merges bound arguments (taking
precedence, never overridden) with validated variable arguments" (section 4.1
step 3): the value seen by the handler for a parameter name. -/
def mergedArg (d : ToolDescriptor) (modelArgs : List (List Char × List Char))
    (n : List Char) : Option (List Char) :=
  match lookupArg d.bound_arguments n with
  | some v => some v
  | none => lookupArg modelArgs n

/-- The descriptor registered by
`service_toolkit.add(generate_sql_query, db_path=db_sqlite_path, model=loaded_model)`
in the notebook (the model object is stood in for by its config name). -/
def genSqlDescriptor : ToolDescriptor :=
  ⟨"generate_sql_query".data,
   ["question".data, "db_path".data, "model".data],
   [("db_path".data, "./database/concert_singer/concert_singer.sqlite".data),
    ("model".data, "gpt-4".data)]⟩

/-- Message roles. -/
inductive Role
  | user
  | assistant
  | system
deriving DecidableEq, Repr

/-- Modelled from the spec: a conversation message (section 3); the ReActAgent
source is not under src/, the notebook only instantiates it. -/
structure Message where
  role : Role
  content : List Char
deriving DecidableEq, Repr

/-- Modelled from the spec: a requested tool call parsed from model output
(section 3). -/
structure ToolCallRequest where
  tool_name : List Char
  arguments : List (List Char × List Char)
deriving DecidableEq, Repr

/-- Modelled from the spec: the parsed output of one reasoning phase
(section 3): thought, user-facing message, and the ordered calls; empty
`calls` signals termination. -/
structure Decision where
  thought : List Char
  speak : List Char
  calls : List ToolCallRequest
deriving DecidableEq, Repr

/-- Modelled from the spec: the model call composed with the Structured Output
Parser: either a valid Decision or a MalformedDecisionError carrying the
offending text (sections 4.4 and 9). -/
inductive ParseOutcome
  | ok (d : Decision)
  | malformed (raw : List Char)
deriving DecidableEq, Repr

/-- Why a turn ended in the FAILED state. -/
inductive FailReason
  | parseBudgetExhausted
  | iterationBudgetExhausted
deriving DecidableEq, Repr

/-- Modelled from the spec: the terminal states of one turn (section 4.5):
TERMINATED surfacing the final `speak`, or FAILED. -/
inductive TurnResult
  | terminated (speak : List Char)
  | failed (reason : FailReason)
deriving DecidableEq, Repr

/-- The corrective system observation appended after a malformed decision
(section 4.5). -/
def correctiveMsg (raw : List Char) : Message :=
  ⟨Role.system, "expected thought/speak/function, got: ".data ++ raw⟩

/-- The observation message appended for one dispatched tool call
(section 4.5). -/
def observationMsg (c : ToolCallRequest) (r : ServiceResponse) : Message :=
  ⟨Role.system, c.tool_name ++ ": ".data ++ r.content⟩

/-- Modelled from the spec: one REASONING phase with parse retries
(section 4.5): invoke the model+parser up to `retries` times, appending a
corrective observation after each malformed output. Returns the decision and
the conversation as extended, or `none` when the retry budget is exhausted,
together with the number of model invocations made. -/
def reasonPhase (modelParse : List Message → ParseOutcome) :
    Nat → List Message → Option (Decision × List Message) × Nat
  | 0, _ => (none, 0)
  | n + 1, conv =>
    match modelParse conv with
    | ParseOutcome.ok d => (some (d, conv), 1)
    | ParseOutcome.malformed raw =>
      let r := reasonPhase modelParse n (conv ++ [correctiveMsg raw])
      (r.1, r.2 + 1)

/-- The trace of one turn: its terminal result, the number of model
invocations, and the number of ACTION phases executed. -/
structure TurnTrace where
  result : TurnResult
  modelCalls : Nat
  actionPhases : Nat
deriving DecidableEq, Repr

/-- Modelled from the spec: the reasoning-action loop (section 4.5), bounded
by the iteration budget `fuel` (`max_iterations`). Each iteration runs a
REASONING phase; a decision with empty `calls` transitions to TERMINATED
surfacing `speak`; otherwise every requested call is dispatched in request
order, the observation messages are appended, and the loop re-enters
REASONING; exhausting the iteration budget yields FAILED with a
budget-exhaustion indication. -/
def runLoop (modelParse : List Message → ParseOutcome)
    (dispatch : ToolCallRequest → ServiceResponse) (maxParseRetries : Nat) :
    Nat → List Message → TurnTrace
  | 0, _ => ⟨TurnResult.failed FailReason.iterationBudgetExhausted, 0, 0⟩
  | fuel + 1, conv =>
    match reasonPhase modelParse maxParseRetries conv with
    | (none, k) => ⟨TurnResult.failed FailReason.parseBudgetExhausted, k, 0⟩
    | (some (d, conv2), k) =>
      match d.calls with
      | [] => ⟨TurnResult.terminated d.speak, k, 0⟩
      | _ :: _ =>
        let t := runLoop modelParse dispatch maxParseRetries fuel
          (conv2 ++ [⟨Role.assistant, d.speak⟩]
            ++ d.calls.map (fun c => observationMsg c (dispatch c)))
        ⟨t.result, t.modelCalls + k, t.actionPhases + 1⟩

/-- A decision with no tool calls, used to exercise `c6_empty_calls_terminates`
at concrete inputs. -/
def demoDecisionEmpty : Decision :=
  ⟨"we have the answer".data, "There are 6 singers.".data, []⟩

/-- A decision with one tool call, used to exercise `c7_budget_bound` at
concrete inputs. -/
def demoDecisionCall : Decision :=
  ⟨"need the count".data, "querying".data,
   [⟨"generate_sql_query".data,
     [("question".data, "How many singers do we have?".data)]⟩]⟩

/-! ### Theorems -/

theorem head_dropWhile_not (p : Char → Bool) (l : List Char) (c : Char)
    (h : (List.dropWhile p l).head? = some c) : p c = false := by
  induction l with
  | nil => simp [List.dropWhile] at h
  | cons a rest ih =>
    rw [List.dropWhile_cons] at h
    by_cases hp : p a
    · exact ih (by simpa [hp] using h)
    · rw [if_neg hp] at h
      simp only [List.head?_cons, Option.some.injEq] at h
      subst h
      simpa using hp

theorem mem_of_mem_pyStrip (l : List Char) (c : Char) (h : c ∈ pyStrip l) :
    c ∈ l := by
  unfold pyStrip at h
  have h1 := (List.dropWhile_sublist isPySpace).subset h
  rw [List.mem_reverse] at h1
  have h2 := (List.dropWhile_sublist isPySpace).subset h1
  rw [List.mem_reverse] at h2
  exact h2

theorem pyStrip_head_not_space (l : List Char) (c : Char)
    (h : (pyStrip l).head? = some c) : isPySpace c = false := by
  unfold pyStrip at h
  exact head_dropWhile_not isPySpace _ c h

theorem pySplitAux_no_space (l : List Char) : ∀ (acc : List Char),
    (∀ c ∈ acc, isPySpace c = false) →
    ∀ w ∈ pySplitAux l acc, ∀ c ∈ w, isPySpace c = false := by
  induction l with
  | nil =>
    intro acc hacc w hw c hc
    simp only [pySplitAux] at hw
    by_cases ha : acc.isEmpty
    · simp [ha] at hw
    · rw [if_neg ha] at hw
      simp only [List.mem_singleton] at hw
      subst hw
      exact hacc c (List.mem_reverse.mp hc)
  | cons a rest ih =>
    intro acc hacc w hw c hc
    simp only [pySplitAux] at hw
    by_cases hs : isPySpace a
    · rw [if_pos hs] at hw
      by_cases ha : acc.isEmpty
      · rw [if_pos ha] at hw
        exact ih [] (by simp) w hw c hc
      · rw [if_neg ha] at hw
        rcases List.mem_cons.mp hw with rfl | hw2
        · exact hacc c (List.mem_reverse.mp hc)
        · exact ih [] (by simp) w hw2 c hc
    · rw [if_neg hs] at hw
      refine ih (a :: acc) ?_ w hw c hc
      intro d hd
      rcases List.mem_cons.mp hd with rfl | hd2
      · simpa using hs
      · exact hacc d hd2

theorem mem_joinSp (ws : List (List Char)) (c : Char) (h : c ∈ joinSp ws) :
    c = ' ' ∨ ∃ w ∈ ws, c ∈ w := by
  induction ws with
  | nil => simp [joinSp] at h
  | cons w ws ih =>
    cases ws with
    | nil => exact Or.inr ⟨w, by simp, by simpa [joinSp] using h⟩
    | cons w2 ws2 =>
      simp only [joinSp] at h
      rcases List.mem_append.mp h with h1 | h2
      · exact Or.inr ⟨w, by simp, h1⟩
      · rcases List.mem_cons.mp h2 with rfl | h3
        · exact Or.inl rfl
        · rcases ih h3 with h4 | ⟨w3, hw3, hc3⟩
          · exact Or.inl h4
          · exact Or.inr ⟨w3, List.mem_cons_of_mem w hw3, hc3⟩

theorem normalizeSql_no_newline (sql : List Char) : '\n' ∉ normalizeSql sql := by
  intro h
  rcases mem_joinSp _ _ h with h1 | ⟨w, hw, hc⟩
  · exact absurd h1 (by decide)
  · have h2 := pySplitAux_no_space (replaceNl sql) [] (by simp) w hw '\n' hc
    exact absurd h2 (by decide)

theorem takeBeforeCC_append (l : List Char) : ∃ t, takeBeforeCC l ++ t = l := by
  induction l with
  | nil => exact ⟨[], rfl⟩
  | cons a rest ih =>
    simp only [takeBeforeCC]
    by_cases hc : (a = '/' && rest.head? = some '*') = true
    · rw [if_pos hc]
      exact ⟨a :: rest, rfl⟩
    · rw [if_neg hc]
      obtain ⟨t, ht⟩ := ih
      exact ⟨t, by rw [List.cons_append, ht]⟩

theorem mem_of_mem_takeBeforeCC (l : List Char) (c : Char)
    (h : c ∈ takeBeforeCC l) : c ∈ l := by
  obtain ⟨t, ht⟩ := takeBeforeCC_append l
  rw [← ht]
  exact List.mem_append_left t h

theorem takeBeforeCC_head (l : List Char) (c : Char)
    (h : (takeBeforeCC l).head? = some c) : l.head? = some c := by
  cases l with
  | nil => simp [takeBeforeCC] at h
  | cons a rest =>
    simp only [takeBeforeCC] at h
    by_cases hc : (a = '/' && rest.head? = some '*') = true
    · rw [if_pos hc] at h
      simp at h
    · rw [if_neg hc] at h
      simpa using h

theorem hasCC_takeBeforeCC (l : List Char) : hasCC (takeBeforeCC l) = false := by
  induction l with
  | nil => rfl
  | cons a rest ih =>
    simp only [takeBeforeCC]
    by_cases hc : (a = '/' && rest.head? = some '*') = true
    · rw [if_pos hc]
      rfl
    · rw [if_neg hc]
      simp only [hasCC, ih, Bool.or_false]
      cases hh : (takeBeforeCC rest).head? with
      | none => simp
      | some d =>
        have h2 := takeBeforeCC_head rest d hh
        rw [← h2]
        simpa using hc

theorem hasCC_append_last (l : List Char) (c : Char) (hne : c ≠ '*')
    (hl : hasCC l = false) : hasCC (l ++ [c]) = false := by
  induction l with
  | nil => simp [hasCC, hne]
  | cons a rest ih =>
    rw [List.cons_append]
    simp only [hasCC] at hl ⊢
    rcases Bool.or_eq_false_iff.mp hl with ⟨h1, h2⟩
    rw [ih h2, Bool.or_false]
    cases rest with
    | nil => simp [hasCC, hne]
    | cons b rest2 => simpa using h1

theorem hasCC_prepend (pre l : List Char) (hpre : ∀ c ∈ pre, c ≠ '/')
    (hl : hasCC l = false) : hasCC (pre ++ l) = false := by
  induction pre with
  | nil => simpa using hl
  | cons a ps ih =>
    rw [List.cons_append]
    simp only [hasCC]
    rw [ih (fun c hc => hpre c (List.mem_cons_of_mem a hc)), Bool.or_false]
    have ha : a ≠ '/' := hpre a (List.mem_cons_self a ps)
    simp [ha]

theorem hasCC_comment_aux (s t : List Char) :
    hasCC (s ++ '/' :: '*' :: t) = true := by
  induction s with
  | nil => simp [hasCC]
  | cons a s2 ih => simp [hasCC, ih]

theorem hasCC_eq_true_iff (l : List Char) :
    hasCC l = true ↔ ['/', '*'] <:+: l := by
  constructor
  · intro h
    induction l with
    | nil => simp [hasCC] at h
    | cons a rest ih =>
      simp only [hasCC, Bool.or_eq_true] at h
      rcases h with h1 | h2
      · have h1b : a = '/' ∧ rest.head? = some '*' := by simpa using h1
        obtain ⟨ha2, hh2⟩ := h1b
        cases rest with
        | nil => simp at hh2
        | cons b r2 =>
          simp only [List.head?_cons, Option.some.injEq] at hh2
          subst ha2
          subst hh2
          show ∃ s t, s ++ ['/', '*'] ++ t = '/' :: '*' :: r2
          exact ⟨[], r2, rfl⟩
      · obtain ⟨s, t2, hst⟩ := ih h2
        show ∃ s t, s ++ ['/', '*'] ++ t = a :: rest
        exact ⟨a :: s, t2, by rw [← hst]; simp⟩
  · intro h
    obtain ⟨s, t2, hst⟩ := h
    rw [← hst, List.append_assoc]
    exact hasCC_comment_aux s t2

theorem sqlCore_head_not_space (completion : List Char) :
    (sqlCore completion).head? ≠ some ' ' := by
  intro h
  unfold sqlCore at h
  have h2 := takeBeforeCC_head _ _ h
  have h3 := pyStrip_head_not_space _ ' ' h2
  exact absurd h3 (by decide)

theorem sqlCore_no_newline (completion : List Char) :
    '\n' ∉ sqlCore completion := by
  intro h
  exact normalizeSql_no_newline completion
    (mem_of_mem_pyStrip _ _ (mem_of_mem_takeBeforeCC _ _ h))

theorem sqlCore_no_comment (completion : List Char) :
    hasCC (sqlCore completion) = false :=
  hasCC_takeBeforeCC _

theorem isPrefixOf_eq_true : ∀ (l m : List Char),
    l.isPrefixOf m = true ↔ ∃ t, l ++ t = m
  | [], m => by simp [List.isPrefixOf]
  | a :: as, [] => by simp [List.isPrefixOf]
  | a :: as, b :: bs => by
    simp only [List.isPrefixOf, Bool.and_eq_true, beq_iff_eq,
      isPrefixOf_eq_true as bs]
    constructor
    · rintro ⟨rfl, t, rfl⟩
      exact ⟨t, rfl⟩
    · rintro ⟨t, ht⟩
      rw [List.cons_append] at ht
      injection ht with hab hrest
      subst hab
      subst hrest
      exact ⟨rfl, t, rfl⟩

theorem selectBranch_safe (s : List Char) (hnl : '\n' ∉ s)
    (hcc : hasCC s = false) :
    (selectBranch s).getLast? = some '\n' ∧
    '\n' ∉ (selectBranch s).dropLast ∧
    hasCC (selectBranch s) = false := by
  unfold selectBranch
  split
  · refine ⟨List.getLast?_concat s, ?_, ?_⟩
    · rw [List.dropLast_concat]
      exact hnl
    · exact hasCC_append_last s '\n' (by decide) hcc
  · split
    · refine ⟨List.getLast?_concat _, ?_, ?_⟩
      · rw [List.dropLast_concat]
        intro hmem
        rcases List.mem_append.mp hmem with h | h
        · exact absurd h (by decide)
        · exact hnl h
      · exact hasCC_append_last _ '\n' (by decide)
          (hasCC_prepend _ s (by decide) hcc)
    · refine ⟨List.getLast?_concat _, ?_, ?_⟩
      · rw [List.dropLast_concat]
        intro hmem
        rcases List.mem_append.mp hmem with h | h
        · exact absurd h (by decide)
        · exact hnl h
      · exact hasCC_append_last _ '\n' (by decide)
          (hasCC_prepend _ s (by decide) hcc)

/-- C8: for every model completion text, the payload returned by
`get_response_from_prompt` ends with exactly one newline character (its last
character is a newline and no newline occurs before it) and contains no
occurrence of the substring `/*`. -/
theorem c8_payload_invariants (completion : List Char) :
    (get_response_from_prompt completion).getLast? = some '\n' ∧
    '\n' ∉ (get_response_from_prompt completion).dropLast ∧
    ¬ (['/', '*'] <:+: get_response_from_prompt completion) := by
  have h := selectBranch_safe (sqlCore completion)
    (sqlCore_no_newline completion) (sqlCore_no_comment completion)
  refine ⟨h.1, h.2.1, ?_⟩
  intro hinf
  have h4 := (hasCC_eq_true_iff _).mpr hinf
  unfold get_response_from_prompt at h4
  rw [h.2.2] at h4
  exact absurd h4 (by decide)

/-- C9: the three-way branch in `get_response_from_prompt` is equivalent to the
two-way function of the claim, because the normalised intermediate string can
never begin with a space, so the `elif sql.startswith(" ")` branch is
unreachable for every model completion text. -/
theorem c9_elif_unreachable (completion : List Char) :
    get_response_from_prompt completion = twoWayResponse completion ∧
    (sqlCore completion).head? ≠ some ' ' := by
  refine ⟨?_, sqlCore_head_not_space completion⟩
  unfold get_response_from_prompt selectBranch twoWayResponse
  split
  · rfl
  · rw [if_neg (sqlCore_head_not_space completion)]

/-- C1 fails on the code: for the completion `"noise SELECT 1;"` the code keeps
the text before the first `SELECT` and prepends another `SELECT`, returning
`"SELECT noise SELECT 1;\n"`, which is not the completion's text from its
first `SELECT` keyword onward (with or without the trailing newline). -/
theorem c1_counterexample :
    get_response_from_prompt "noise SELECT 1;".data
        = "SELECT noise SELECT 1;\n".data ∧
    fromFirstSelect "noise SELECT 1;".data = "SELECT 1;".data ∧
    get_response_from_prompt "noise SELECT 1;".data
        ≠ fromFirstSelect "noise SELECT 1;".data ∧
    get_response_from_prompt "noise SELECT 1;".data
        ≠ fromFirstSelect "noise SELECT 1;".data ++ ['\n'] := by
  exact ⟨by decide, by decide, by decide, by decide⟩

/-- C1 (amended): for every model completion text, the SQL string produced by
`generate_sql_query` starts with `SELECT`, and the whole normalised completion
(whitespace-normalised and truncated at the first `/*`) survives as a suffix
of the returned query before its trailing newline: nothing before the first
`SELECT` is stripped; instead `"SELECT "` is prepended when the normalised
completion does not already start with `SELECT`. -/
theorem c1_amended_select_kept (completion : List Char) :
    "SELECT".data <+: get_response_from_prompt completion ∧
    sqlCore completion <:+ (get_response_from_prompt completion).dropLast := by
  unfold get_response_from_prompt selectBranch
  split
  · next hsel =>
    constructor
    · obtain ⟨t, ht⟩ := (isPrefixOf_eq_true _ _).mp hsel
      show ∃ u, "SELECT".data ++ u = sqlCore completion ++ ['\n']
      exact ⟨t ++ ['\n'], by rw [← List.append_assoc, ht]⟩
    · rw [List.dropLast_concat]
  · split
    · constructor
      · show ∃ u, "SELECT".data ++ u = "SELECT".data ++ sqlCore completion ++ ['\n']
        exact ⟨sqlCore completion ++ ['\n'], rfl⟩
      · rw [List.dropLast_concat]
        show ∃ u, u ++ sqlCore completion = "SELECT".data ++ sqlCore completion
        exact ⟨"SELECT".data, rfl⟩
    · constructor
      · show ∃ u, "SELECT".data ++ u = "SELECT ".data ++ sqlCore completion ++ ['\n']
        exact ⟨' ' :: (sqlCore completion ++ ['\n']), rfl⟩
      · rw [List.dropLast_concat]
        show ∃ u, u ++ sqlCore completion = "SELECT ".data ++ sqlCore completion
        exact ⟨"SELECT ".data, rfl⟩

/-- C2: for a model completion equal to the bare query
`"SELECT COUNT(DISTINCT Singer_ID) FROM singer;"`, the normalisation returns
that query followed by a single trailing newline and otherwise unchanged, and
`generate_sql_query` returns exactly that string as a SUCCESS payload,
whatever the question and the generated prompt are. -/
theorem c2_bare_query (question prompt : List Char) :
    get_response_from_prompt "SELECT COUNT(DISTINCT Singer_ID) FROM singer;".data
        = "SELECT COUNT(DISTINCT Singer_ID) FROM singer;\n".data ∧
    generate_sql_query (fun _ => Except.ok prompt)
        (fun _ => "SELECT COUNT(DISTINCT Singer_ID) FROM singer;".data) question
      = Except.ok ⟨ServiceExecStatus.SUCCESS,
          "SELECT COUNT(DISTINCT Singer_ID) FROM singer;\n".data⟩ := by
  exact ⟨by decide, rfl⟩

/-- C10: whenever the prompt builder and the model call return normally,
`generate_sql_query` returns a `ServiceResponse` with status SUCCESS; the tool
has no code path producing a FAILURE status, and the empty completion yields
the payload `"SELECT \n"`. -/
theorem c10_always_success (promptGen : List Char → Except (List Char) (List Char))
    (model : List Char → List Char) (question : List Char) :
    (∀ r, generate_sql_query promptGen model question = Except.ok r →
        r.status = ServiceExecStatus.SUCCESS) ∧
    (∀ prompt, promptGen question = Except.ok prompt →
        generate_sql_query promptGen model question
          = Except.ok ⟨ServiceExecStatus.SUCCESS,
              get_response_from_prompt (model prompt)⟩) ∧
    get_response_from_prompt [] = "SELECT \n".data := by
  refine ⟨?_, ?_, by decide⟩
  · intro r hr
    unfold generate_sql_query at hr
    cases hpg : promptGen question with
    | error e =>
      rw [hpg] at hr
      exact absurd hr (by simp [Bind.bind, Except.bind])
    | ok p =>
      rw [hpg] at hr
      have hr2 : Except.ok (⟨ServiceExecStatus.SUCCESS,
          get_response_from_prompt (model p)⟩ : ServiceResponse)
          = Except.ok r := hr
      injection hr2 with hr3
      rw [← hr3]
  · intro prompt hp
    unfold generate_sql_query
    rw [hp]
    rfl

/-- C10 witness: at the concrete inputs (prompt builder returning an empty
prompt, model returning the empty completion), the tool returns SUCCESS with
payload `"SELECT \n"`. -/
theorem c10_witness :
    generate_sql_query (fun _ => Except.ok []) (fun _ => []) []
      = Except.ok ⟨ServiceExecStatus.SUCCESS, "SELECT \n".data⟩ :=
  (c10_always_success (fun _ => Except.ok []) (fun _ => []) []).2.1 [] rfl

/-- C3 fails on the code as stated: `generate_sql_query` contains no exception
handling, so a prompt-builder failure (for example an unreadable schema)
propagates out of the tool as a raised exception (an `Except.error` here), not
as a `ServiceResponse` with status FAILURE. -/
theorem c3_counterexample :
    generate_sql_query (fun _ => Except.error "unreadable schema".data)
        (fun _ => []) []
      = Except.error "unreadable schema".data := by
  rfl

/-- C3 (amended): a prompt-builder failure propagates out of
`generate_sql_query` as a raised exception; it is the surrounding registry
dispatch (modelled from the spec) that captures the fault and converts it to a
FAILURE result, so the orchestrator does not crash. -/
theorem c3_amended_dispatch_failure
    (promptGen : List Char → Except (List Char) (List Char))
    (model : List Char → List Char) (question e : List Char)
    (h : promptGen question = Except.error e) :
    dispatchCaptured (fun _ => generate_sql_query promptGen model question)
      = ⟨ServiceExecStatus.FAILURE, e⟩ := by
  have h2 : generate_sql_query promptGen model question = Except.error e := by
    unfold generate_sql_query
    rw [h]
    rfl
  unfold dispatchCaptured
  simp only [h2]

/-- C3 amended witness: at a concrete failing prompt builder, the dispatched
tool result is a FAILURE carrying the builder's error detail. -/
theorem c3_amended_witness :
    dispatchCaptured (fun _ =>
        generate_sql_query (fun _ => Except.error "unreadable schema".data)
          (fun _ => []) [])
      = ⟨ServiceExecStatus.FAILURE, "unreadable schema".data⟩ :=
  c3_amended_dispatch_failure _ _ _ _ rfl

/-- C4: for every query classified as mutating, `query_sqlite` with
`allow_change_data = false` returns a policy-violation FAILURE and the number
of calls reaching the underlying connection is zero, whatever the connection
does. -/
theorem c4_mutation_guard
    (conn : List Char → Except (List Char) (List (List Int))) (q : List Char)
    (h : isMutatingQuery q = true) :
    query_sqlite conn false q
      = (SqlQueryResult.failure "MutationNotAllowedError".data, 0) := by
  unfold query_sqlite
  simp [h]

/-- C4 witness: `"DROP TABLE singer;"` is classified as mutating and rejected
with zero connection calls. -/
theorem c4_witness :
    query_sqlite (fun _ => Except.ok []) false "DROP TABLE singer;".data
      = (SqlQueryResult.failure "MutationNotAllowedError".data, 0) :=
  c4_mutation_guard _ _ (by decide)

/-- C5: for every descriptor and every model-supplied argument mapping, a
bound argument keeps its registered value in the merged arguments seen by the
handler, and its name does not appear in the schema exposed to the model. -/
theorem c5_bound_precedence (d : ToolDescriptor)
    (modelArgs : List (List Char × List Char)) (n v : List Char)
    (h : lookupArg d.bound_arguments n = some v) :
    mergedArg d modelArgs n = some v ∧ n ∉ exposedParams d := by
  constructor
  · unfold mergedArg
    rw [h]
  · intro hmem
    unfold exposedParams at hmem
    have h2 := (List.mem_filter.mp hmem).2
    rw [h] at h2
    simp at h2

/-- C5 witness: a model-supplied mapping that tries to override `db_path` does
not change the bound value, and `db_path` is absent from the exposed schema. -/
theorem c5_witness :
    mergedArg genSqlDescriptor [("db_path".data, "/tmp/evil.sqlite".data)]
        "db_path".data
      = some "./database/concert_singer/concert_singer.sqlite".data ∧
    "db_path".data ∉ exposedParams genSqlDescriptor :=
  c5_bound_precedence genSqlDescriptor _ _ _ (by decide)

/-- C6: for every valid parsed Decision with empty `calls`, the loop
terminates after exactly one REASONING phase (one model invocation), performs
no ACTION phase, and surfaces the Decision's `speak` field as the final
assistant message. -/
theorem c6_empty_calls_terminates
    (modelParse : List Message → ParseOutcome)
    (dispatch : ToolCallRequest → ServiceResponse)
    (r fuel : Nat) (conv : List Message) (d : Decision)
    (h1 : modelParse conv = ParseOutcome.ok d) (h2 : d.calls = [])
    (hr : 0 < r) (hf : 0 < fuel) :
    runLoop modelParse dispatch r fuel conv
      = ⟨TurnResult.terminated d.speak, 1, 0⟩ := by
  obtain ⟨dt, ds, dc⟩ := d
  have h2b : dc = [] := h2
  subst h2b
  cases fuel with
  | zero => exact absurd hf (by simp)
  | succ f =>
    cases r with
    | zero => exact absurd hr (by simp)
    | succ n =>
      have hstep : reasonPhase modelParse (n + 1) conv
          = (some (⟨dt, ds, []⟩, conv), 1) := by
        rw [reasonPhase, h1]
      rw [runLoop, hstep]

/-- C6 witness: with a model that immediately produces a decision with empty
`calls`, the loop with budgets 3 and 10 terminates surfacing its `speak`,
after one model call and no ACTION phase. -/
theorem c6_witness :
    runLoop (fun _ => ParseOutcome.ok demoDecisionEmpty)
        (fun _ => ⟨ServiceExecStatus.SUCCESS, []⟩) 3 10 []
      = ⟨TurnResult.terminated "There are 6 singers.".data, 1, 0⟩ :=
  c6_empty_calls_terminates _ _ 3 10 [] demoDecisionEmpty rfl rfl
    (by decide) (by decide)

theorem runLoop_step (modelParse : List Message → ParseOutcome)
    (dispatch : ToolCallRequest → ServiceResponse)
    (n f : Nat) (conv : List Message) (d : Decision)
    (c : ToolCallRequest) (cs : List ToolCallRequest)
    (hd : modelParse conv = ParseOutcome.ok d) (hc : d.calls = c :: cs) :
    runLoop modelParse dispatch (n + 1) (f + 1) conv
      = ⟨(runLoop modelParse dispatch (n + 1) f
            (conv ++ [⟨Role.assistant, d.speak⟩]
              ++ d.calls.map (fun c2 => observationMsg c2 (dispatch c2)))).result,
         (runLoop modelParse dispatch (n + 1) f
            (conv ++ [⟨Role.assistant, d.speak⟩]
              ++ d.calls.map (fun c2 => observationMsg c2 (dispatch c2)))).modelCalls + 1,
         (runLoop modelParse dispatch (n + 1) f
            (conv ++ [⟨Role.assistant, d.speak⟩]
              ++ d.calls.map (fun c2 => observationMsg c2 (dispatch c2)))).actionPhases + 1⟩ := by
  obtain ⟨dt, ds, dc⟩ := d
  have hcb : dc = c :: cs := hc
  subst hcb
  have hstep : reasonPhase modelParse (n + 1) conv
      = (some (⟨dt, ds, c :: cs⟩, conv), 1) := by
    rw [reasonPhase, hd]
  rw [runLoop, hstep]

/-- C7: for every model behaviour the loop performs at most `fuel`
(`max_iterations`) ACTION iterations, and for a model that always parses but
never produces an empty `calls` sequence the turn ends FAILED with the
iteration-budget-exhaustion indication instead of looping forever. -/
theorem c7_budget_bound (modelParse : List Message → ParseOutcome)
    (dispatch : ToolCallRequest → ServiceResponse)
    (r fuel : Nat) (conv : List Message) (hr : 0 < r)
    (H : ∀ c2, ∃ d, modelParse c2 = ParseOutcome.ok d ∧ d.calls ≠ []) :
    (runLoop modelParse dispatch r fuel conv).actionPhases ≤ fuel ∧
    (runLoop modelParse dispatch r fuel conv).result
      = TurnResult.failed FailReason.iterationBudgetExhausted := by
  induction fuel generalizing conv with
  | zero => exact ⟨Nat.le_refl 0, rfl⟩
  | succ f ih =>
    obtain ⟨d, hd, hne⟩ := H conv
    cases r with
    | zero => exact absurd hr (by simp)
    | succ n =>
      cases hc : d.calls with
      | nil => exact absurd hc hne
      | cons c cs =>
        rw [runLoop_step modelParse dispatch n f conv d c cs hd hc]
        constructor
        · exact Nat.succ_le_succ (ih _).1
        · exact (ih _).2

/-- C7 witness: with a model that always requests another tool call, the loop
with iteration budget 2 executes at most 2 ACTION phases and ends FAILED with
budget exhaustion. -/
theorem c7_witness :
    (runLoop (fun _ => ParseOutcome.ok demoDecisionCall)
        (fun _ => ⟨ServiceExecStatus.SUCCESS, []⟩) 3 2 []).actionPhases ≤ 2 ∧
    (runLoop (fun _ => ParseOutcome.ok demoDecisionCall)
        (fun _ => ⟨ServiceExecStatus.SUCCESS, []⟩) 3 2 []).result
      = TurnResult.failed FailReason.iterationBudgetExhausted :=
  c7_budget_bound _ _ 3 2 [] (by decide)
    (fun _ => ⟨demoDecisionCall, rfl, by decide⟩)
